import Mathlib

/-!
Verification of the domain-aware document chunking engine
(`src/documents/chunker.py`, `src/documents/chunking/*.py`).

The engine is a pure, synchronous transformation from parsed document
sections to bounded-size chunks.  This file gives a shallow embedding of
the data model and of the four chunking strategies (structure-aware
default chunker, code-aware chunker, tabular chunker, domain-aware
facade with its strategy registry), and proves or refutes the spec's
claims about them.

Modelling conventions:
* Python `str` is modelled as `List Char` (`Text`); `len` is `List.length`.
* Python integers are unbounded, so `Nat`/`Int` model them directly;
  Python `//` on non-negative operands is `Nat` division.
* `count_tokens` embeds the documented `ImportError` fallback branch
  (`len(text) // 4`): `tiktoken` is an external library outside this
  repository.
* `uuid.uuid4()` in `_create_chunk` draws a fresh random identifier per
  chunk.  Every chunker appends chunks to its result list in creation
  order and never reorders them, so the uuid stream is modelled as a
  function `Nat → Text` applied positionally by `assignIds` at the
  facade boundary; `createChunk` itself leaves `id` empty.
* Python `\s` and `str.strip()` use the ASCII whitespace class here;
  none of the claims involve non-ASCII whitespace.
-/

set_option linter.unusedVariables false

namespace Chunking

/-- Python `str`, modelled as a list of characters. -/
abbrev Text := List Char

/-- Literal conversion helper for Python string literals. -/
def toText (s : String) : Text := s.data

/-- ASCII whitespace, the characters matched by Python `\s` and stripped by
`str.strip()` on ASCII input. -/
def isSpace (c : Char) : Bool :=
  c = ' ' || c = '\t' || c = '\n' || c = '\r' || c = '\x0b' || c = '\x0c'

/-- Python `str.strip()`: drop leading and trailing whitespace. -/
def pyStrip (t : Text) : Text :=
  ((t.dropWhile isSpace).reverse.dropWhile isSpace).reverse

/-- `s.strip()` is non-empty (truthy) iff `s` has a non-whitespace character;
this is the form used in guards below. -/
def hasNonSpace (t : Text) : Bool := t.any (fun c => !(isSpace c))

/-- Python `"sep".join(parts)` specialised to list-of-chars strings. -/
def joinText (sep : Text) : List Text → Text
  | [] => []
  | [x] => x
  | x :: y :: rest => x ++ sep ++ joinText sep (y :: rest)

/-- Helper for `pySplitLines`. -/
def splitLinesAux (acc : Text) : Text → List Text
  | [] => [acc.reverse]
  | c :: rest =>
    if c = '\n' then acc.reverse :: splitLinesAux [] rest
    else splitLinesAux (c :: acc) rest

/-- Python `content.split("\n")`: always at least one piece, keeps empties. -/
def pySplitLines (t : Text) : List Text := splitLinesAux [] t

/-- Helper for `pySplitWords`: `acc` holds the reversed characters of the
word being scanned. -/
def wordsAux (acc : Text) : Text → List Text
  | [] => if acc.isEmpty then [] else [acc.reverse]
  | c :: rest =>
    if isSpace c then
      if acc.isEmpty then wordsAux [] rest else acc.reverse :: wordsAux [] rest
    else wordsAux (c :: acc) rest

/-- Python `s.split()` with no argument: split on whitespace runs and discard
empty pieces. -/
def pySplitWords (t : Text) : List Text := wordsAux [] t

/-- Python `xs[-k:]`.  For `k = 0` the slice is `xs[0:]`, the **whole** list
(`-0 == 0`); for `k > 0` it is the final `min k xs.length` elements.  The
`k = 0` case is load-bearing for the tabular chunker's row grouping. -/
def sliceLast (k : Nat) (xs : List α) : List α :=
  if k = 0 then xs else xs.drop (xs.length - k)

/-- `count_tokens` from `chunking/base.py` (duplicated in `chunker.py`):
the embedded estimator is the documented fallback branch
`len(text) // 4`; `tiktoken` is external to the repository. -/
def count_tokens (text : Text) : Nat := text.length / 4

/-- `DocumentSection` from `documents/parser.py`. -/
structure DocumentSection where
  content : Text
  page : Option Nat
  heading : Option Text
  section_type : Text
deriving DecidableEq

/-- `ChunkMetadata` from `chunking/base.py`.  The copy in `chunker.py` lacks
the `language`/`function_name` fields; the structure-aware chunker never
sets them, so the two dataclasses coincide with those fields at `none`. -/
structure ChunkMetadata where
  source : Text
  page : Option Nat
  heading : Option Text
  section_type : Text
  chunk_index : Nat
  total_chunks : Nat
  char_count : Nat
  token_count : Nat
  language : Option Text
  function_name : Option Text
deriving DecidableEq

/-- `Chunk` from `chunking/base.py`. -/
structure Chunk where
  id : Text
  content : Text
  metadata : ChunkMetadata
deriving DecidableEq

/-- `BaseChunker._create_chunk` / `StructureAwareChunker._create_chunk`:
builds a chunk for `content`, computing `char_count` and `token_count` at
creation time.  The random `uuid.uuid4()` id is modelled positionally by
`assignIds` (see the module docstring), so `id` is empty here. -/
def createChunk (content : Text) (sect : DocumentSection) (source : Text)
    (language : Option Text) : Chunk :=
  { id := []
    content := content
    metadata :=
      { source := source
        page := sect.page
        heading := sect.heading
        section_type := sect.section_type
        chunk_index := 0
        total_chunks := 0
        char_count := content.length
        token_count := count_tokens content
        language := language
        function_name := none } }

/-- Helper for `updateChunkIndices`: stamp positions from `i` upward. -/
def stampIndices (total : Nat) : Nat → List Chunk → List Chunk
  | _, [] => []
  | i, c :: cs =>
    { c with metadata := { c.metadata with chunk_index := i, total_chunks := total } }
      :: stampIndices total (i + 1) cs

/-- `BaseChunker._update_chunk_indices`, also inlined in
`StructureAwareChunker.chunk`: assign `chunk_index = position` and
`total_chunks = length` to every chunk in one pass. -/
def updateChunkIndices (chunks : List Chunk) : List Chunk :=
  stampIndices chunks.length 0 chunks

/-- The uuid stream applied positionally (creation order = output order in
every chunker). -/
def assignIdsLoop (ids : Nat → Text) : Nat → List Chunk → List Chunk
  | _, [] => []
  | n, c :: cs => { c with id := ids n } :: assignIdsLoop ids (n + 1) cs

/-- Stamp the uuid stream onto a chunk list. -/
def assignIds (ids : Nat → Text) (chunks : List Chunk) : List Chunk :=
  assignIdsLoop ids 0 chunks

/-- The sentence-terminal punctuation class `[.!?]`. -/
def isTerminalPunct (c : Char) : Bool := c = '.' || c = '!' || c = '?'

/-- The character class `[A-Z]`. -/
def isUpperAZ (c : Char) : Bool := 'A' ≤ c && c ≤ 'Z'

mutual

/-- Left-to-right scan implementing
`re.split(r'(?<=[.!?])\s+(?=[A-Z])|(?<=[.!?])\s*$', text)` on input that has
already been stripped.  A split point is a maximal whitespace run that is
preceded by `[.!?]` and followed by `[A-Z]`: the `\s+` cannot backtrack to a
shorter run (the lookahead would then see a whitespace character), a new
match can only begin after another `[.!?]`, and on stripped input the
second alternative `(?<=[.!?])\s*$` can only match the empty string at the
very end, contributing an empty trailing piece that the comprehension
filter in `_split_into_sentences` removes anyway.  The scan is a two-state
automaton: `sentenceScanNormal` accumulates the current piece (reversed in
`acc`); after terminal punctuation `sentenceScanPending` collects the
whitespace run (reversed in `wsAcc`) and decides at its end whether the run
is a separator. -/
def sentenceScanNormal (acc : Text) : Text → List Text
  | [] => [acc.reverse]
  | c :: rest =>
    if isTerminalPunct c then sentenceScanPending (c :: acc) [] rest
    else sentenceScanNormal (c :: acc) rest

def sentenceScanPending (acc wsAcc : Text) : Text → List Text
  | [] => [(wsAcc ++ acc).reverse]
  | c :: rest =>
    if isSpace c then sentenceScanPending acc (c :: wsAcc) rest
    else if !wsAcc.isEmpty && isUpperAZ c then
      acc.reverse :: sentenceScanNormal [c] rest
    else if isTerminalPunct c then sentenceScanPending (c :: (wsAcc ++ acc)) [] rest
    else sentenceScanNormal (c :: (wsAcc ++ acc)) rest

end

/-- `_split_into_sentences` (identical in `base.py` and `chunker.py`): strip,
split on the sentence pattern, then `[s.strip() for s in sentences if s.strip()]`
(filtering on the stripped value and keeping the stripped value commute, so
this is `map pyStrip` followed by dropping empties). -/
def splitIntoSentences (text : Text) : List Text :=
  ((sentenceScanNormal [] (pyStrip text)).map pyStrip).filter (fun s => !s.isEmpty)

/-- Helper for `getOverlapSentences`: walk the reversed sentence list,
prepending while the running token total stays within `overlap_tokens`,
stopping at the first sentence that does not fit. -/
def overlapLoop (overlap_tokens : Nat) : List Text → Nat → List Text → List Text
  | [], _, acc => acc
  | s :: rest, tok, acc =>
    if tok + count_tokens s ≤ overlap_tokens then
      overlapLoop overlap_tokens rest (tok + count_tokens s) (s :: acc)
    else acc

/-- `_get_overlap_sentences` (identical in `base.py` and `chunker.py`). -/
def getOverlapSentences (overlap_tokens : Nat) (sentences : List Text) : List Text :=
  overlapLoop overlap_tokens sentences.reverse 0 []

/-! ### Structure-aware (default) chunker, `documents/chunker.py` -/

/-- Loop body of `StructureAwareChunker._split_long_sentence`: greedy
word packing with flush-and-overlap.  The state is
`(remaining words, chunks, current_words, current_tokens)`. -/
def splitLongSentenceLoop (max_tokens overlap_tokens : Nat) (sect : DocumentSection)
    (source : Text) : List Text → List Chunk → List Text → Nat → List Chunk
  | [], chunks, currentWords, _ =>
    if !currentWords.isEmpty then
      chunks ++ [createChunk (joinText (toText " ") currentWords) sect source none]
    else chunks
  | w :: ws, chunks, currentWords, currentTokens =>
    let wordTokens := count_tokens (w ++ toText " ")
    if currentTokens + wordTokens > max_tokens && !currentWords.isEmpty then
      let chunks1 := chunks ++ [createChunk (joinText (toText " ") currentWords) sect source none]
      let overlapWordCount := min currentWords.length (overlap_tokens / 2)
      let newWords := sliceLast overlapWordCount currentWords ++ [w]
      splitLongSentenceLoop max_tokens overlap_tokens sect source ws chunks1 newWords
        ((newWords.map (fun x => count_tokens (x ++ toText " "))).sum)
    else
      splitLongSentenceLoop max_tokens overlap_tokens sect source ws chunks
        (currentWords ++ [w]) (currentTokens + wordTokens)

/-- `StructureAwareChunker._split_long_sentence`. -/
def splitLongSentence (max_tokens overlap_tokens : Nat) (sentence : Text)
    (sect : DocumentSection) (source : Text) : List Chunk :=
  splitLongSentenceLoop max_tokens overlap_tokens sect source (pySplitWords sentence) [] [] 0

/-- Loop body of `StructureAwareChunker._split_content`: greedy sentence
packing; a sentence exceeding `max_tokens` flushes the buffer and is split
by words; otherwise pack-and-flush with sentence overlap. -/
def splitContentLoop (max_tokens overlap_tokens : Nat) (sect : DocumentSection)
    (source : Text) : List Text → List Chunk → List Text → Nat → List Chunk
  | [], chunks, currentChunk, _ =>
    if !currentChunk.isEmpty then
      chunks ++ [createChunk (joinText (toText " ") currentChunk) sect source none]
    else chunks
  | s :: rest, chunks, currentChunk, currentTokens =>
    let sentenceTokens := count_tokens s
    if sentenceTokens > max_tokens then
      let chunks1 :=
        if !currentChunk.isEmpty then
          chunks ++ [createChunk (joinText (toText " ") currentChunk) sect source none]
        else chunks
      let chunks2 := chunks1 ++ splitLongSentence max_tokens overlap_tokens s sect source
      splitContentLoop max_tokens overlap_tokens sect source rest chunks2 [] 0
    else if currentTokens + sentenceTokens > max_tokens && !currentChunk.isEmpty then
      let chunks1 := chunks ++ [createChunk (joinText (toText " ") currentChunk) sect source none]
      let overlapSentences := getOverlapSentences overlap_tokens currentChunk
      let newCurrent := overlapSentences ++ [s]
      splitContentLoop max_tokens overlap_tokens sect source rest chunks1 newCurrent
        ((newCurrent.map count_tokens).sum)
    else
      splitContentLoop max_tokens overlap_tokens sect source rest chunks
        (currentChunk ++ [s]) (currentTokens + sentenceTokens)

/-- `StructureAwareChunker._split_content`. -/
def splitContent (max_tokens overlap_tokens : Nat) (content : Text)
    (sect : DocumentSection) (source : Text) : List Chunk :=
  if (pyStrip content).isEmpty then []
  else if count_tokens content ≤ max_tokens then [createChunk content sect source none]
  else splitContentLoop max_tokens overlap_tokens sect source (splitIntoSentences content) [] [] 0

/-- `StructureAwareChunker._chunk_section`: code sections are emitted as a
single chunk unconditionally; table sections that fit the budget are kept
together; everything else goes through `_split_content`. -/
def structChunkSection (max_tokens overlap_tokens : Nat) (sect : DocumentSection)
    (source : Text) : List Chunk :=
  if sect.section_type = toText "code" then [createChunk sect.content sect source none]
  else if sect.section_type = toText "table" ∧ count_tokens sect.content ≤ max_tokens then
    [createChunk sect.content sect source none]
  else splitContent max_tokens overlap_tokens sect.content sect source

/-- `StructureAwareChunker.chunk`: per-section chunking followed by the
inline index/total stamping pass. -/
def structChunk (max_tokens overlap_tokens : Nat) (sections : List DocumentSection)
    (source : Text) : List Chunk :=
  updateChunkIndices
    ((sections.map (fun s => structChunkSection max_tokens overlap_tokens s source)).flatten)

/-! ### Code-aware chunker, `chunking/code_chunker.py`

`CodeDocumentChunker.PATTERNS` maps language names to regex families.
`_find_boundaries` only uses *whether* the combined pattern matches a
stripped line (the matched group name, line number and indent recorded in
the boundary dict are never read by `_split_by_structure`, which consumes
only `full_line`).  The python family — which is also the
`PATTERNS.get(language, PATTERNS["python"])` fallback for every unmapped
language — is embedded exactly below.  The javascript/java/rust families
are not exercised by any claim.  The go family's "function" pattern
`func\s+(?:\(\*\w+\s*)?\w+\s*)\(.*?\)` is not valid regex syntax at all
(unbalanced group, see `goFunctionPattern` and claim C4): `re.search`
raises `re.error` on it, so no boundary semantics exists to embed. -/

/-- The regex word class `\w` (ASCII range; no claim uses non-ASCII input). -/
def isWordChar (c : Char) : Bool := c.isAlpha || c.isDigit || c = '_'

/-- Does `needle` occur at the head of `hay`? -/
def startsWithText : Text → Text → Bool
  | [], _ => true
  | _ :: _, [] => false
  | a :: as, b :: bs => a = b && startsWithText as bs

/-- Does the contiguous substring `needle` occur anywhere in `hay`? -/
def textContains (needle : Text) : Text → Bool
  | [] => startsWithText needle []
  | hay@(_ :: rest) => startsWithText needle hay || textContains needle rest

/-- Does `")"` immediately followed by `":"` occur in the text?  This is the
existence condition of the reluctant tail `\).* :`-free form `.*?\):` of the
python "function" pattern: lazy matching with backtracking succeeds iff the
two-character substring `):` occurs. -/
def hasCloseParenColon : Text → Bool
  | ')' :: ':' :: _ => true
  | _ :: rest => hasCloseParenColon rest
  | [] => false

/-- Match of the python "function" pattern `def\s+\w+\s*\(.*?\):` anchored at
the head of `l`.  `\s+`/`\w+`/`\s*` are maximal-munch here: shortening any of
them cannot help, because the next required class rejects the character the
run would give back. -/
def defHeadMatch (l : Text) : Bool :=
  if startsWithText (toText "def") l then
    let r0 := l.drop 3
    let ws := r0.takeWhile isSpace
    let r1 := r0.dropWhile isSpace
    let w := r1.takeWhile isWordChar
    let r2 := r1.dropWhile isWordChar
    let r3 := r2.dropWhile isSpace
    !ws.isEmpty && !w.isEmpty &&
      (match r3 with
       | '(' :: r4 => hasCloseParenColon r4
       | _ => false)
  else false

/-- Match of the python "class" pattern `class\s+\w+.*?:` anchored at the
head of `l`: after the word run, the reluctant `.*?:` succeeds iff a colon
occurs later (a colon is not a word character, so it always lies in the
remainder after the maximal word run). -/
def classHeadMatch (l : Text) : Bool :=
  if startsWithText (toText "class") l then
    let r0 := l.drop 5
    let ws := r0.takeWhile isSpace
    let r1 := r0.dropWhile isSpace
    let w := r1.takeWhile isWordChar
    let r2 := r1.dropWhile isWordChar
    !ws.isEmpty && !w.isEmpty && r2.contains ':'
  else false

/-- Match of the python "decorator" pattern `@\w+` anchored at the head. -/
def decoratorHeadMatch (l : Text) : Bool :=
  match l with
  | '@' :: d :: _ => isWordChar d
  | _ => false

/-- `re.search`: does the anchored matcher succeed at some position? -/
def searchAt (p : Text → Bool) : Text → Bool
  | [] => p []
  | l@(_ :: rest) => p l || searchAt p rest

/-- `re.search(all_patterns, line.strip())` for the python pattern family of
`CodeDocumentChunker.PATTERNS` (alternation of function, class and
decorator patterns — only match existence is consumed downstream). -/
def isPythonBoundaryLine (line : Text) : Bool :=
  let l := pyStrip line
  searchAt defHeadMatch l || searchAt classHeadMatch l || searchAt decoratorHeadMatch l

/-- Append `extra` to the last element of a non-empty list of texts. -/
def updateLastText (extra : Text) : List Text → List Text
  | [] => []
  | [x] => [x ++ extra]
  | x :: xs => x :: updateLastText extra xs

/-- Loop of `CodeDocumentChunker._find_boundaries`, tracking the `full_line`
field of each boundary dict (the only field `_split_by_structure` reads).
A boundary line opens a new unit; a non-boundary line is appended to the
*preceding* unit — and is silently dropped when no boundary has been seen
yet (the `if boundaries:` guard), which is the C5 incompleteness site. -/
def findBoundariesLoop (acc : List Text) : List Text → List Text
  | [] => acc
  | line :: rest =>
    if isPythonBoundaryLine line then findBoundariesLoop (acc ++ [line]) rest
    else if acc.isEmpty then findBoundariesLoop acc rest
    else findBoundariesLoop (updateLastText ('\n' :: line) acc) rest

/-- `CodeDocumentChunker._find_boundaries` (python pattern family). -/
def findBoundaries (content : Text) : List Text :=
  findBoundariesLoop [] (pySplitLines content)

/-- Loop of `CodeDocumentChunker._split_by_structure`: accumulate boundary
units; flush when the accumulated text reaches `max_tokens` or at the last
unit; keep the final `min 3` units as overlap. -/
def splitByStructureLoop (max_tokens : Nat) (sect : DocumentSection) (source : Text)
    (language : Text) (total : Nat) :
    Nat → List Text → List Chunk → List Text → List Chunk
  | _, [], chunks, _ => chunks
  | idx, b :: rest, chunks, currentLines =>
    let cur1 := currentLines ++ [b]
    let currentText := joinText (toText "\n") cur1
    if count_tokens currentText ≥ max_tokens || idx = total - 1 then
      let chunks1 := chunks ++ [createChunk currentText sect source (some language)]
      let overlapCount := min 3 cur1.length
      splitByStructureLoop max_tokens sect source language total (idx + 1) rest chunks1
        (sliceLast overlapCount cur1)
    else
      splitByStructureLoop max_tokens sect source language total (idx + 1) rest chunks cur1

/-- Loop of `CodeDocumentChunker._split_by_lines`: greedy line packing with a
fixed `min 5` trailing-line overlap; note the unconditional append of the
incoming line *after* a possible flush. -/
def splitByLinesLoop (max_tokens : Nat) (sect : DocumentSection) (source : Text)
    (language : Text) : List Text → List Chunk → List Text → Nat → List Chunk
  | [], chunks, currentLines, _ =>
    if !currentLines.isEmpty then
      chunks ++ [createChunk (joinText (toText "\n") currentLines) sect source (some language)]
    else chunks
  | line :: rest, chunks, currentLines, currentTokens =>
    let lineTokens := count_tokens (line ++ toText "\n")
    if currentTokens + lineTokens > max_tokens && !currentLines.isEmpty then
      let chunks1 :=
        chunks ++ [createChunk (joinText (toText "\n") currentLines) sect source (some language)]
      let overlapCount := min 5 currentLines.length
      let newLines := sliceLast overlapCount currentLines
      let newTokens := (newLines.map (fun l => count_tokens (l ++ toText "\n"))).sum
      splitByLinesLoop max_tokens sect source language rest chunks1
        (newLines ++ [line]) (newTokens + lineTokens)
    else
      splitByLinesLoop max_tokens sect source language rest chunks
        (currentLines ++ [line]) (currentTokens + lineTokens)

/-- `CodeDocumentChunker._split_by_lines`. -/
def splitByLines (max_tokens : Nat) (content : Text) (sect : DocumentSection)
    (source : Text) (language : Text) : List Chunk :=
  splitByLinesLoop max_tokens sect source language (pySplitLines content) [] [] 0

/-- `CodeDocumentChunker._split_by_structure`. -/
def splitByStructure (max_tokens : Nat) (content : Text) (sect : DocumentSection)
    (source : Text) (language : Text) : List Chunk :=
  let boundaries := findBoundaries content
  if boundaries.isEmpty then splitByLines max_tokens content sect source language
  else
    let chunks := splitByStructureLoop max_tokens sect source language
      boundaries.length 0 boundaries [] []
    if chunks.isEmpty then [createChunk content sect source (some language)] else chunks

/-- `CodeDocumentChunker.EXTENSION_MAP`. -/
def EXTENSION_MAP_CODE : List (Text × Text) :=
  [(toText "py", toText "python"), (toText "pyi", toText "python"),
   (toText "js", toText "javascript"), (toText "jsx", toText "javascript"),
   (toText "ts", toText "javascript"), (toText "tsx", toText "javascript"),
   (toText "java", toText "java"), (toText "go", toText "go"),
   (toText "rs", toText "rust"), (toText "cpp", toText "cpp"),
   (toText "c", toText "c"), (toText "h", toText "c"),
   (toText "cs", toText "csharp"), (toText "php", toText "php"),
   (toText "rb", toText "ruby"), (toText "swift", toText "swift"),
   (toText "kt", toText "kotlin")]

/-- The characters after the last `'.'`, i.e. `source.rsplit(".", 1)[-1]`. -/
def afterLastDot (t : Text) : Text :=
  (t.reverse.takeWhile (fun c => c ≠ '.')).reverse

/-- Python `str.lower()`. -/
def pyLower (t : Text) : Text := t.map Char.toLower

/-- `CodeDocumentChunker._detect_language`: extension lookup with default
language `"python"`. -/
def detectLanguage (source : Text) : Text :=
  let ext := if source.contains '.' then pyLower (afterLastDot source) else []
  (EXTENSION_MAP_CODE.lookup ext).getD (toText "python")

/-- `CodeDocumentChunker._chunk_code_section`. -/
def codeChunkSection (max_tokens : Nat) (sect : DocumentSection) (source : Text) :
    List Chunk :=
  let language := detectLanguage source
  if count_tokens sect.content ≤ max_tokens then
    [createChunk sect.content sect source (some language)]
  else splitByStructure max_tokens sect.content sect source language

/-- `CodeDocumentChunker.chunk` (the chunker never reads `overlap_tokens`:
its overlaps are the fixed 3- and 5-line windows). -/
def codeChunk (max_tokens : Nat) (sections : List DocumentSection) (source : Text) :
    List Chunk :=
  updateChunkIndices
    ((sections.map (fun s => codeChunkSection max_tokens s source)).flatten)

/-- The literal go "function" pattern of `CodeDocumentChunker.PATTERNS`
(python raw string `func\s+(?:\(\*\w+\s*)?\w+\s*)\(.*?\)`). -/
def goFunctionPattern : Text := toText "func\\s+(?:\\(\\*\\w+\\s*)?\\w+\\s*)\\(.*?\\)"

/-- Group-balance scanner for a regex source string: a backslash escapes the
following character (making `\(`/`\)` literals), an unescaped `[` opens a
character class in which parentheses are literal, and unescaped `(`/`)`
outside a class must nest properly.  `re.compile` rejects any pattern this
scanner rejects (`re.error: unbalanced parenthesis`). -/
def regexParensBalancedLoop (depth : Nat) (inClass : Bool) : Text → Bool
  | [] => !inClass && depth = 0
  | '\\' :: rest =>
    match rest with
    | [] => false
    | _ :: rest2 => regexParensBalancedLoop depth inClass rest2
  | c :: rest =>
    if inClass then
      if c = ']' then regexParensBalancedLoop depth false rest
      else regexParensBalancedLoop depth true rest
    else if c = '[' then regexParensBalancedLoop depth true rest
    else if c = '(' then regexParensBalancedLoop (depth + 1) false rest
    else if c = ')' then
      match depth with
      | 0 => false
      | d + 1 => regexParensBalancedLoop d false rest
    else regexParensBalancedLoop depth false rest

/-- Is the regex source string group-balanced? -/
def regexParensBalanced (pattern : Text) : Bool :=
  regexParensBalancedLoop 0 false pattern

/-! ### Tabular chunker, `chunking/tabular_chunker.py` -/

/-- Loop of `TabularDocumentChunker._chunk_simple`: identical greedy sentence
packing to `_split_content`, but with **no** oversized-sentence word split. -/
def chunkSimpleLoop (max_tokens overlap_tokens : Nat) (sect : DocumentSection)
    (source : Text) : List Text → List Chunk → List Text → Nat → List Chunk
  | [], chunks, currentSentences, _ =>
    if !currentSentences.isEmpty then
      chunks ++ [createChunk (joinText (toText " ") currentSentences) sect source none]
    else chunks
  | s :: rest, chunks, currentSentences, currentTokens =>
    let sentenceTokens := count_tokens s
    if currentTokens + sentenceTokens > max_tokens && !currentSentences.isEmpty then
      let chunks1 :=
        chunks ++ [createChunk (joinText (toText " ") currentSentences) sect source none]
      let overlapSentences := getOverlapSentences overlap_tokens currentSentences
      let newCurrent := overlapSentences ++ [s]
      chunkSimpleLoop max_tokens overlap_tokens sect source rest chunks1 newCurrent
        ((newCurrent.map count_tokens).sum)
    else
      chunkSimpleLoop max_tokens overlap_tokens sect source rest chunks
        (currentSentences ++ [s]) (currentTokens + sentenceTokens)

/-- `TabularDocumentChunker._chunk_simple`. -/
def chunkSimple (max_tokens overlap_tokens : Nat) (sect : DocumentSection)
    (source : Text) : List Chunk :=
  if count_tokens sect.content ≤ max_tokens then [createChunk sect.content sect source none]
  else chunkSimpleLoop max_tokens overlap_tokens sect source
    (splitIntoSentences sect.content) [] [] 0

/-- Loop of `TabularDocumentChunker._group_rows`: append each row, flush when
the group reaches `rows_per_chunk`, retain `current_group[-overlap:]` where
`overlap = min(rows_per_chunk // 2, len(current_group))` — for
`rows_per_chunk = 1` the overlap is `0` and the `[-0:]` slice retains the
**entire** group (see `sliceLast`). -/
def groupRowsLoop (rows_per_chunk : Nat) :
    List Text → List (List Text) → List Text → List (List Text)
  | [], groups, currentGroup =>
    if !currentGroup.isEmpty then groups ++ [currentGroup] else groups
  | row :: rest, groups, currentGroup =>
    let cur1 := currentGroup ++ [row]
    if cur1.length ≥ rows_per_chunk then
      let overlap := min (rows_per_chunk / 2) cur1.length
      groupRowsLoop rows_per_chunk rest (groups ++ [cur1]) (sliceLast overlap cur1)
    else groupRowsLoop rows_per_chunk rest groups cur1

/-- `TabularDocumentChunker._group_rows`. -/
def groupRows (rows : List Text) (rows_per_chunk : Nat) : List (List Text) :=
  if rows.isEmpty then [] else groupRowsLoop rows_per_chunk rows [] []

/-- `TabularDocumentChunker._chunk_table_section`.  `available_tokens` is a
genuine integer difference (it can be negative), hence `Int`.  One
divergence from CPython is deliberately *not* papered over: when the rows
are so short that `avg_row_tokens` computes to `0`, Python raises
`ZeroDivisionError` at `available_tokens // avg_row_tokens`, while `Nat`
division returns `0` (so `rows_per_chunk = 1`) — no claim depends on that
case, and theorems about the row grouping assume `0 < avg_row_tokens`
where it matters. -/
def tabularChunkTableSection (max_tokens overlap_tokens : Nat)
    (sect : DocumentSection) (source : Text) : List Chunk :=
  let content := sect.content
  if count_tokens content ≤ max_tokens then [createChunk content sect source none]
  else
    let lines := pySplitLines content
    let header := lines.headD []
    let rows := lines.tail
    let headerTokens := count_tokens header
    let availableTokens : Int := (max_tokens : Int) - headerTokens - overlap_tokens
    if availableTokens ≤ 0 then chunkSimple max_tokens overlap_tokens sect source
    else
      let avgRowTokens :=
        if !rows.isEmpty then ((rows.map count_tokens).sum) / rows.length else 100
      let rowsPerChunk := max 1 (availableTokens.toNat / avgRowTokens)
      (groupRows rows rowsPerChunk).map
        (fun g => createChunk (header ++ '\n' :: joinText (toText "\n") g) sect source none)

/-- `TabularDocumentChunker.chunk`: table sections via
`_chunk_table_section`, everything else via `_chunk_simple`, then index
stamping. -/
def tabularChunk (max_tokens overlap_tokens : Nat) (sections : List DocumentSection)
    (source : Text) : List Chunk :=
  updateChunkIndices
    ((sections.map (fun s =>
      if s.section_type = toText "table" then
        tabularChunkTableSection max_tokens overlap_tokens s source
      else chunkSimple max_tokens overlap_tokens s source)).flatten)

/-! ### Strategy registry and domain-aware facade,
`chunking/registry.py` and `chunking/domain_aware_chunker.py` -/

/-- `ChunkingStrategyRegistry._EXTENSION_MAP`. -/
def EXTENSION_MAP_REGISTRY : List (Text × Text) :=
  [(toText "py", toText "code"), (toText "pyi", toText "code"),
   (toText "js", toText "code"), (toText "jsx", toText "code"),
   (toText "ts", toText "code"), (toText "tsx", toText "code"),
   (toText "java", toText "code"), (toText "go", toText "code"),
   (toText "rs", toText "code"), (toText "cpp", toText "code"),
   (toText "c", toText "code"), (toText "h", toText "code"),
   (toText "cs", toText "code"), (toText "php", toText "code"),
   (toText "rb", toText "code"), (toText "swift", toText "code"),
   (toText "kt", toText "code"), (toText "scala", toText "code"),
   (toText "sh", toText "code"), (toText "bash", toText "code"),
   (toText "zsh", toText "code"), (toText "sql", toText "code"),
   (toText "csv", toText "tabular"), (toText "tsv", toText "tabular"),
   (toText "xlsx", toText "tabular"), (toText "xls", toText "tabular"),
   (toText "txt", toText "default"), (toText "md", toText "default"),
   (toText "pdf", toText "default"), (toText "docx", toText "default"),
   (toText "doc", toText "default"), (toText "rtf", toText "default"),
   (toText "html", toText "default"), (toText "json", toText "default"),
   (toText "xml", toText "default"), (toText "yaml", toText "default"),
   (toText "yml", toText "default")]

/-- `ChunkingStrategyRegistry._get_extension`. -/
def registryGetExtension (source : Text) : Text :=
  if source.contains '.' then pyLower (afterLastDot source) else []

/-- `ChunkingStrategyRegistry.get_strategy`: a *truthy* content hint (a
non-empty string) bypasses extension lookup; otherwise the extension map
decides, defaulting to `"default"`. -/
def registryGetStrategy (source : Text) (content_hint : Option Text) : Text :=
  match content_hint with
  | some h =>
    if !h.isEmpty then h
    else (EXTENSION_MAP_REGISTRY.lookup (registryGetExtension source)).getD (toText "default")
  | none =>
    (EXTENSION_MAP_REGISTRY.lookup (registryGetExtension source)).getD (toText "default")

/-- `DomainAwareChunker._get_strategy`.  The `table_ratio > 0.5` comparison
is a CPython float comparison; it is modelled with exact rationals, with
which it agrees for every section count below `2 ^ 52` (the true ratio
differs from `1/2` by at least `1 / (2 n)`, far above the rounding error of
one correctly-rounded division). -/
def facadeGetStrategy (strategy : Text) (source : Text)
    (sections : List DocumentSection) : Text :=
  if strategy ≠ toText "auto" then strategy
  else
    let strat := registryGetStrategy source none
    if strat = toText "default" ∧ sections ≠ [] then
      let tableRatio : ℚ :=
        ((sections.filter (fun s => s.section_type = toText "table")).length : ℚ) /
          (sections.length : ℚ)
      if tableRatio > 1 / 2 then toText "tabular" else strat
    else strat

/-- `ChunkingStrategyRegistry.create_chunker` composed with the selected
chunker's `chunk`, as performed by `DomainAwareChunker.chunk`: an
unrecognized strategy name raises `ValueError` (modelled as `Except.error`). -/
def facadeChunkCore (max_tokens overlap_tokens : Nat) (strategy : Text)
    (sections : List DocumentSection) (source : Text) : Except Text (List Chunk) :=
  let strat := facadeGetStrategy strategy source sections
  if strat = toText "code" then Except.ok (codeChunk max_tokens sections source)
  else if strat = toText "tabular" then
    Except.ok (tabularChunk max_tokens overlap_tokens sections source)
  else if strat = toText "default" then
    Except.ok (structChunk max_tokens overlap_tokens sections source)
  else Except.error (toText "Unknown chunking strategy: " ++ strat)

/-- `DomainAwareChunker.chunk` with the uuid stream made explicit: the only
randomness in the pipeline is `uuid.uuid4()` inside `_create_chunk`, drawn
once per chunk in output order. -/
def facadeChunk (ids : Nat → Text) (max_tokens overlap_tokens : Nat) (strategy : Text)
    (sections : List DocumentSection) (source : Text) : Except Text (List Chunk) :=
  (facadeChunkCore max_tokens overlap_tokens strategy sections source).map (assignIds ids)

/-! ### Definitions supporting the claim statements -/

/-- The index contract of §3/§8: `chunk_index` values are exactly the
positions `0, 1, ..., N-1` in list order and every chunk's `total_chunks`
is the result length. -/
def indexContract (r : List Chunk) : Prop :=
  ∀ (i : Nat) (h : i < r.length),
    (r.get ⟨i, h⟩).metadata.chunk_index = i ∧
      (r.get ⟨i, h⟩).metadata.total_chunks = r.length

/-- A chunk without its randomly generated id: content plus metadata. -/
def chunkEssence (c : Chunk) : Text × ChunkMetadata := (c.content, c.metadata)

/-- The first line of a text, i.e. `t.split("\n")[0]`. -/
def firstLine (t : Text) : Text := t.takeWhile (fun c => c ≠ '\n')

/-- A multi-word, multi-line code section whose token estimate (7) exceeds
the budget used with it (1): not a single irreducible unit. -/
def C1sect : DocumentSection :=
  ⟨toText "aaaa bbbb cccc\ndddd eeee ffff", none, none, toText "code"⟩

/-- A one-sentence paragraph section used to exercise index stamping. -/
def C2sect : DocumentSection := ⟨toText "Hello world.", none, none, toText "paragraph"⟩

/-- A one-sentence paragraph section for the determinism claim. -/
def C3sect : DocumentSection := ⟨toText "Hello world.", none, none, toText "paragraph"⟩

/-- The chunk produced for `C3sect` when the uuid stream yields `"a"`. -/
def C3chunkA : Chunk :=
  { id := toText "a"
    content := toText "Hello world."
    metadata :=
      { source := toText "notes.txt"
        page := none
        heading := none
        section_type := toText "paragraph"
        chunk_index := 0
        total_chunks := 1
        char_count := 12
        token_count := 3
        language := none
        function_name := none } }

/-- The chunk produced for `C3sect` when the uuid stream yields `"b"`. -/
def C3chunkB : Chunk :=
  { id := toText "b"
    content := toText "Hello world."
    metadata :=
      { source := toText "notes.txt"
        page := none
        heading := none
        section_type := toText "paragraph"
        chunk_index := 0
        total_chunks := 1
        char_count := 12
        token_count := 3
        language := none
        function_name := none } }

/-- A python code section that starts with a non-boundary line
(`import os`) and exceeds the token budget used with it (1). -/
def C5sect : DocumentSection :=
  ⟨toText "import os\ndef f(x):\n    return x", none, none, toText "code"⟩

/-- A code section with empty content. -/
def C6sect : DocumentSection := ⟨[], none, none, toText "code"⟩

/-- A table section whose estimate (5 tokens) exceeds the budget used with
it (4), with header `hhhhhhhhhh` (2 tokens) and rows `aaaa`, `bbbb`
(1 token each): row budget 2, average row cost 1, `rows_per_chunk = 2`. -/
def C8sect : DocumentSection :=
  ⟨toText "hhhhhhhhhh\naaaa\nbbbb", none, none, toText "table"⟩

/-- The empty-content chunk that the default chunker emits for `C6sect`. -/
def C6chunk : Chunk :=
  { id := []
    content := []
    metadata :=
      { source := toText "d.txt"
        page := none
        heading := none
        section_type := toText "code"
        chunk_index := 0
        total_chunks := 1
        char_count := 0
        token_count := 0
        language := none
        function_name := none } }

/-- An over-budget table section for the header-preservation claim: same
shape as `C8sect` (header 2 tokens, rows 1 token each, budget 4). -/
def C7sect : DocumentSection :=
  ⟨toText "hhhhhhhhhh\naaaa\nbbbb", none, none, toText "table"⟩

/-- Five sections of which four (80%) are table-typed, for the content-hint
override scenario of `"notes.txt"`. -/
def C9sections : List DocumentSection :=
  [⟨toText "r1", none, none, toText "table"⟩,
   ⟨toText "r2", none, none, toText "table"⟩,
   ⟨toText "r3", none, none, toText "table"⟩,
   ⟨toText "r4", none, none, toText "table"⟩,
   ⟨toText "p", none, none, toText "paragraph"⟩]

/-! ### Helper lemmas -/

/-- `stampIndices` preserves length. -/
theorem stampIndices_length (total : Nat) (i : Nat) (cs : List Chunk) :
    (stampIndices total i cs).length = cs.length := by
  induction cs generalizing i with
  | nil => rfl
  | cons c cs ih => simp [stampIndices, ih]

/-- The chunk at offset `j` of `stampIndices total i cs` carries index
`i + j` and total `total`. -/
theorem stampIndices_get (total : Nat) (cs : List Chunk) :
    ∀ (i j : Nat) (h : j < (stampIndices total i cs).length),
      ((stampIndices total i cs).get ⟨j, h⟩).metadata.chunk_index = i + j ∧
        ((stampIndices total i cs).get ⟨j, h⟩).metadata.total_chunks = total := by
  induction cs with
  | nil => intro i j h; simp [stampIndices] at h
  | cons c cs ih =>
    intro i j h
    cases j with
    | zero => simp [stampIndices]
    | succ j =>
      have h2 : j < (stampIndices total (i + 1) cs).length := by
        simpa [stampIndices] using h
      have := ih (i + 1) j h2
      simpa [stampIndices, Nat.add_comm, Nat.add_left_comm] using this

/-- Index stamping establishes the index contract. -/
theorem updateChunkIndices_contract (cs : List Chunk) :
    indexContract (updateChunkIndices cs) := by
  intro i h
  have := stampIndices_get cs.length cs 0 i h
  constructor
  · simpa using this.1
  · have hlen : (updateChunkIndices cs).length = cs.length :=
      stampIndices_length cs.length 0 cs
    exact this.2.trans hlen.symm

/-- `assignIdsLoop` only changes ids: content and metadata survive. -/
theorem assignIdsLoop_essence (ids : Nat → Text) :
    ∀ (n : Nat) (cs : List Chunk),
      (assignIdsLoop ids n cs).map chunkEssence = cs.map chunkEssence := by
  intro n cs
  induction cs generalizing n with
  | nil => rfl
  | cons c cs ih => simp [assignIdsLoop, chunkEssence, ih]

/-- The content-hint ratio test, reduced to integers: for a non-empty
section list, `table_count / len > 0.5` iff `len < 2 * table_count`.
This also makes `facadeGetStrategy` kernel-computable (rational division
normalizes with `Nat.gcd`, which the kernel cannot unfold). -/
theorem facadeGetStrategy_eq (strategy source : Text) (sections : List DocumentSection) :
    facadeGetStrategy strategy source sections =
      if strategy ≠ toText "auto" then strategy
      else if registryGetStrategy source none = toText "default" ∧ sections ≠ [] ∧
          sections.length
            < 2 * (sections.filter (fun s => s.section_type = toText "table")).length
        then toText "tabular"
        else registryGetStrategy source none := by
  unfold facadeGetStrategy
  by_cases h1 : strategy ≠ toText "auto"
  · simp [h1]
  · rw [if_neg h1, if_neg h1]
    by_cases h2 : registryGetStrategy source none = toText "default" ∧ sections ≠ []
    · have hn : 0 < sections.length := List.length_pos.mpr h2.2
      have hn' : (0 : ℚ) < (sections.length : ℚ) := by exact_mod_cast hn
      have key : ((1 : ℚ) / 2
            < ((sections.filter (fun s => s.section_type = toText "table")).length : ℚ) /
              (sections.length : ℚ))
          ↔ sections.length
            < 2 * (sections.filter (fun s => s.section_type = toText "table")).length := by
        rw [lt_div_iff₀ hn']
        constructor
        · intro h
          have h' : (sections.length : ℚ)
              < 2 * ((sections.filter (fun s => s.section_type = toText "table")).length : ℚ) := by
            linarith
          exact_mod_cast h'
        · intro h
          have h' : (sections.length : ℚ)
              < 2 * ((sections.filter (fun s => s.section_type = toText "table")).length : ℚ) := by
            exact_mod_cast h
          linarith
      rw [if_pos h2]
      by_cases h3 : sections.length
          < 2 * (sections.filter (fun s => s.section_type = toText "table")).length
      · rw [if_pos (key.mpr h3), if_pos ⟨h2.1, h2.2, h3⟩]
      · rw [if_neg (fun hc => h3 (key.mp hc)), if_neg (fun hc => h3 hc.2.2)]
    · rw [if_neg h2, if_neg (fun hc => h2 ⟨hc.1, hc.2.1⟩)]

/-! ### Claims -/

/-- C1 (counterexample): the budget property fails beyond single
irreducible units.  On a code section of 29 characters (estimate 7 tokens)
with `max_tokens = 1`, the default chunker emits exactly one chunk with
`token_count = 7 > 1` whose content consists of six words on two lines —
not a single word, table row, or code line. -/
theorem C1_counterexample :
    structChunk 1 0 [C1sect] (toText "x.txt")
        = [{ id := []
             content := toText "aaaa bbbb cccc\ndddd eeee ffff"
             metadata :=
               { source := toText "x.txt"
                 page := none
                 heading := none
                 section_type := toText "code"
                 chunk_index := 0
                 total_chunks := 1
                 char_count := 29
                 token_count := 7
                 language := none
                 function_name := none } }] ∧
      1 < count_tokens C1sect.content ∧
      1 < (pySplitWords C1sect.content).length ∧
      1 < (pySplitLines C1sect.content).length := by
  refine ⟨by decide, by decide, by decide, by decide⟩

/-- C1 (amended): over-budget chunks are never dropped, but they are not
limited to single irreducible units: the default chunker emits **every**
code section as one chunk whose `token_count` is the estimate of the whole
section content, so any code section whose estimate exceeds `max_tokens`
yields an over-budget multi-unit chunk. -/
theorem C1_code_sections_bypass_budget (max_tokens overlap_tokens : Nat)
    (sect : DocumentSection) (source : Text)
    (hcode : sect.section_type = toText "code")
    (hbig : max_tokens < count_tokens sect.content) :
    structChunkSection max_tokens overlap_tokens sect source
        = [createChunk sect.content sect source none] ∧
      max_tokens < (createChunk sect.content sect source none).metadata.token_count := by
  constructor
  · unfold structChunkSection
    rw [if_pos hcode]
  · simpa [createChunk] using hbig

/-- C1 (witness): the amended statement evaluated on `C1sect` with
`max_tokens = 1`. -/
theorem C1_code_sections_bypass_budget_witness :
    structChunkSection 1 0 C1sect (toText "x.txt")
        = [createChunk C1sect.content C1sect (toText "x.txt") none] ∧
      1 < (createChunk C1sect.content C1sect (toText "x.txt") none).metadata.token_count :=
  C1_code_sections_bypass_budget 1 0 C1sect (toText "x.txt") (by decide) (by decide)

/-- C2: every chunker's `chunk` ends with the shared index stamping pass,
so `chunk_index` values are exactly `0, ..., N-1` in list order and every
chunk's `total_chunks` equals the result length `N`, for the default,
code-aware and tabular chunkers alike. -/
theorem C2_index_contract (max_tokens overlap_tokens : Nat)
    (sections : List DocumentSection) (source : Text) :
    indexContract (structChunk max_tokens overlap_tokens sections source) ∧
      indexContract (codeChunk max_tokens sections source) ∧
      indexContract (tabularChunk max_tokens overlap_tokens sections source) :=
  ⟨updateChunkIndices_contract _, updateChunkIndices_contract _,
    updateChunkIndices_contract _⟩

/-- C2 (witness): the contract evaluated at position 0 of a concrete
single-chunk result of the default chunker. -/
theorem C2_index_contract_witness :
    ((structChunk 500 50 [C2sect] (toText "a.txt")).get ⟨0, by decide⟩).metadata.chunk_index = 0 ∧
      ((structChunk 500 50 [C2sect] (toText "a.txt")).get ⟨0, by decide⟩).metadata.total_chunks
        = (structChunk 500 50 [C2sect] (toText "a.txt")).length :=
  (C2_index_contract 500 50 [C2sect] (toText "a.txt")).1 0 (by decide)

/-- C3 (counterexample): two Facade calls with identical sections, source
and configuration do **not** return identical chunk lists, because each
chunk's `id` is a fresh random `uuid.uuid4()` draw: with the uuid stream
made explicit, draws `"a"` and `"b"` give lists differing in the id. -/
theorem C3_counterexample :
    (facadeChunk (fun _ => toText "a") 500 50 (toText "auto") [C3sect]
          (toText "notes.txt")).toOption
        = some [C3chunkA] ∧
      (facadeChunk (fun _ => toText "b") 500 50 (toText "auto") [C3sect]
          (toText "notes.txt")).toOption
        = some [C3chunkB] ∧
      C3chunkA ≠ C3chunkB := by
  have hstrat : facadeGetStrategy (toText "auto") (toText "notes.txt") [C3sect]
      = toText "default" := by
    rw [facadeGetStrategy_eq]
    decide
  refine ⟨?_, ?_, by decide⟩ <;>
  · simp only [facadeChunk, facadeChunkCore, hstrat]
    decide

/-- C3 (amended): the pipeline is deterministic up to the random chunk ids:
for any two uuid streams, the two Facade results agree chunk-for-chunk on
content and on all metadata (and on the error, if the pinned strategy is
unknown); only the ids may differ. -/
theorem C3_deterministic_up_to_ids (ids1 ids2 : Nat → Text)
    (max_tokens overlap_tokens : Nat) (strategy : Text)
    (sections : List DocumentSection) (source : Text) :
    (facadeChunk ids1 max_tokens overlap_tokens strategy sections source).map
        (List.map chunkEssence)
      = (facadeChunk ids2 max_tokens overlap_tokens strategy sections source).map
        (List.map chunkEssence) := by
  unfold facadeChunk
  cases facadeChunkCore max_tokens overlap_tokens strategy sections source with
  | error e => rfl
  | ok l => simp [Except.map, assignIds, assignIdsLoop_essence]

/-- C4: the go "function" pattern in `CodeDocumentChunker.PATTERNS` has an
unmatched closing parenthesis, so it is not a compilable regex: chunking a
`.go` source whose section exceeds the budget reaches
`re.search(all_patterns, ...)` and raises `re.error` instead of falling
back — `chunk()` can fail.  The language detected for a `.go` source is
`"go"`, and its pattern fails the group-balance check that `re.compile`
enforces. -/
theorem C4_go_pattern_unbalanced :
    detectLanguage (toText "main.go") = toText "go" ∧
      regexParensBalanced goFunctionPattern = false := by
  refine ⟨by decide, by decide⟩

/-- C5: completeness fails in the code chunker: lines before the first
structural boundary are dropped.  On `C5sect` (whose estimate 8 exceeds
the budget 1), `_find_boundaries` discards `import os` because no boundary
has been seen yet, so the emitted chunks — here exactly one — do not
contain it anywhere, although the input does. -/
theorem C5_leading_lines_dropped :
    codeChunkSection 1 C5sect (toText "a.py")
        = [createChunk (toText "def f(x):\n    return x") C5sect (toText "a.py")
            (some (toText "python"))] ∧
      textContains (toText "import os") C5sect.content = true ∧
      textContains (toText "import os")
          (joinText (toText "\n")
            ((codeChunkSection 1 C5sect (toText "a.py")).map Chunk.content)) = false := by
  refine ⟨by decide, by decide, by decide⟩

/-- `createChunk` stores the given content verbatim. -/
theorem createChunk_content (content : Text) (sect : DocumentSection) (source : Text)
    (language : Option Text) :
    (createChunk content sect source language).content = content := rfl

/-- Dropping a whitespace run cannot change whether a non-whitespace
character occurs. -/
theorem hasNonSpace_dropWhile (t : Text) :
    hasNonSpace (t.dropWhile isSpace) = hasNonSpace t := by
  induction t with
  | nil => rfl
  | cons c rest ih =>
    rw [List.dropWhile_cons]
    by_cases hc : isSpace c = true
    · rw [if_pos hc, ih]
      simp [hasNonSpace, hc]
    · rw [if_neg hc]

/-- Reversal preserves the occurrence of a non-whitespace character. -/
theorem hasNonSpace_reverse (t : Text) : hasNonSpace t.reverse = hasNonSpace t := by
  simp [hasNonSpace, List.any_reverse]

/-- Stripping preserves the occurrence of a non-whitespace character. -/
theorem hasNonSpace_pyStrip (t : Text) : hasNonSpace (pyStrip t) = hasNonSpace t := by
  rw [pyStrip, hasNonSpace_reverse, hasNonSpace_dropWhile, hasNonSpace_reverse,
    hasNonSpace_dropWhile]

/-- The head surviving `dropWhile` fails the predicate. -/
theorem dropWhile_head_not (p : α → Bool) :
    ∀ (l : List α) (a : α) (rest : List α), l.dropWhile p = a :: rest → p a = false := by
  intro l
  induction l with
  | nil => intro a rest h; cases h
  | cons x xs ih =>
    intro a rest h
    rw [List.dropWhile_cons] at h
    by_cases hx : p x = true
    · rw [if_pos hx] at h
      exact ih a rest h
    · rw [if_neg hx] at h
      cases h
      simpa using hx

/-- A string that strips to something non-empty contains a non-whitespace
character (already inside its stripped form). -/
theorem pyStrip_ne_nil_hasNonSpace (t : Text) (h : pyStrip t ≠ []) :
    hasNonSpace (pyStrip t) = true := by
  rw [pyStrip] at h ⊢
  cases he : ((t.dropWhile isSpace).reverse.dropWhile isSpace) with
  | nil => rw [he] at h; simp at h
  | cons a rest =>
    rw [hasNonSpace_reverse]
    have ha := dropWhile_head_not isSpace _ a rest he
    simp [hasNonSpace, ha]

/-- Every piece returned by `_split_into_sentences` contains a
non-whitespace character: the comprehension keeps only pieces whose strip
is truthy. -/
theorem splitIntoSentences_hasNonSpace (t : Text) :
    ∀ s ∈ splitIntoSentences t, hasNonSpace s = true := by
  intro s hs
  simp only [splitIntoSentences, List.mem_filter, List.mem_map] at hs
  obtain ⟨⟨x, hx, rfl⟩, hne⟩ := hs
  exact pyStrip_ne_nil_hasNonSpace x (by simpa using hne)

/-- Every word produced by `split()` contains a non-whitespace character
(its characters are all non-whitespace and it is non-empty). -/
theorem wordsAux_hasNonSpace :
    ∀ (t acc : Text), (acc = [] ∨ hasNonSpace acc = true) →
      ∀ w ∈ wordsAux acc t, hasNonSpace w = true := by
  intro t
  induction t with
  | nil =>
    intro acc hacc w hw
    rw [wordsAux] at hw
    cases hc : acc.isEmpty with
    | true => rw [hc] at hw; simp at hw
    | false =>
      rw [hc] at hw
      simp only [if_false, Bool.false_eq_true, List.mem_singleton] at hw
      subst hw
      rcases hacc with h | h
      · rw [h] at hc; simp at hc
      · rw [hasNonSpace_reverse]; exact h
  | cons c rest ih =>
    intro acc hacc w hw
    rw [wordsAux] at hw
    by_cases hc : isSpace c = true
    · rw [if_pos hc] at hw
      cases ha : acc.isEmpty with
      | true => rw [ha] at hw; simp only [if_true] at hw; exact ih [] (Or.inl rfl) w hw
      | false =>
        rw [ha] at hw
        simp only [if_false, Bool.false_eq_true, List.mem_cons] at hw
        rcases hw with rfl | hw
        · rcases hacc with h | h
          · rw [h] at ha; simp at ha
          · rw [hasNonSpace_reverse]; exact h
        · exact ih [] (Or.inl rfl) w hw
    · rw [if_neg hc] at hw
      refine ih (c :: acc) (Or.inr ?_) w hw
      have hcf : isSpace c = false := by
        cases hcc : isSpace c
        · rfl
        · exact absurd hcc hc
      simp [hasNonSpace, hcf]

/-- Every word of `pySplitWords` contains a non-whitespace character. -/
theorem pySplitWords_hasNonSpace (t : Text) :
    ∀ w ∈ pySplitWords t, hasNonSpace w = true :=
  wordsAux_hasNonSpace t [] (Or.inl rfl)

/-- A non-whitespace character survives concatenation on either side. -/
theorem hasNonSpace_append (a b : Text) :
    hasNonSpace (a ++ b) = (hasNonSpace a || hasNonSpace b) := by
  simp [hasNonSpace, List.any_append]

/-- Joining keeps any non-whitespace character of any part. -/
theorem joinText_hasNonSpace (sep : Text) :
    ∀ (parts : List Text) (x : Text), x ∈ parts → hasNonSpace x = true →
      hasNonSpace (joinText sep parts) = true := by
  intro parts
  induction parts with
  | nil => intro x hx; cases hx
  | cons p ps ih =>
    intro x hx hns
    cases ps with
    | nil =>
      rw [List.mem_singleton.mp hx] at hns
      rw [joinText]
      exact hns
    | cons q qs =>
      rw [joinText, hasNonSpace_append, hasNonSpace_append]
      rcases List.mem_cons.mp hx with rfl | hx2
      · rw [hns]
        rfl
      · rw [ih x hx2 hns]
        simp

/-- `xs[-k:]` only keeps elements of `xs`. -/
theorem sliceLast_subset (k : Nat) (xs : List α) : sliceLast k xs ⊆ xs := by
  rw [sliceLast]
  by_cases h : k = 0
  · rw [if_pos h]
    exact fun a ha => ha
  · rw [if_neg h]
    exact List.drop_subset _ _

/-- Elements selected by the overlap loop come from the scanned list or
the accumulator. -/
theorem overlapLoop_subset (ovT : Nat) :
    ∀ (l : List Text) (tok : Nat) (acc : List Text) (x : Text),
      x ∈ overlapLoop ovT l tok acc → x ∈ l ∨ x ∈ acc := by
  intro l
  induction l with
  | nil => intro tok acc x hx; exact Or.inr hx
  | cons s rest ih =>
    intro tok acc x hx
    rw [overlapLoop] at hx
    by_cases hc : tok + count_tokens s ≤ ovT
    · rw [if_pos hc] at hx
      rcases ih _ _ x hx with h | h
      · exact Or.inl (List.mem_cons_of_mem _ h)
      · rcases List.mem_cons.mp h with rfl | h2
        · exact Or.inl (List.mem_cons_self _ _)
        · exact Or.inr h2
    · rw [if_neg hc] at hx
      exact Or.inr hx

/-- Overlap sentences are sentences of the closed chunk. -/
theorem getOverlapSentences_subset (ovT : Nat) (sentences : List Text) (x : Text)
    (hx : x ∈ getOverlapSentences ovT sentences) : x ∈ sentences := by
  rcases overlapLoop_subset ovT sentences.reverse 0 [] x hx with h | h
  · exact List.mem_reverse.mp h
  · cases h

/-- Invariant of the word-packing loop: if all pending words and all
already-emitted chunks contain a non-whitespace character, so does every
chunk of the final result. -/
theorem splitLongSentenceLoop_good (max_tokens overlap_tokens : Nat)
    (sect : DocumentSection) (source : Text) :
    ∀ (ws : List Text) (chunks : List Chunk) (currentWords : List Text) (tok : Nat),
      (∀ c ∈ chunks, hasNonSpace c.content = true) →
      (∀ w ∈ currentWords, hasNonSpace w = true) →
      (∀ w ∈ ws, hasNonSpace w = true) →
      ∀ c ∈ splitLongSentenceLoop max_tokens overlap_tokens sect source ws chunks
          currentWords tok,
        hasNonSpace c.content = true := by
  intro ws
  induction ws with
  | nil =>
    intro chunks currentWords tok hchunks hcur hws c hc
    rw [splitLongSentenceLoop] at hc
    cases hcw : currentWords.isEmpty with
    | true => rw [hcw] at hc; simp only [Bool.not_true, Bool.false_eq_true, if_false] at hc
              exact hchunks c hc
    | false =>
      rw [hcw] at hc
      simp only [Bool.not_false, if_true, List.mem_append, List.mem_singleton] at hc
      rcases hc with hc | rfl
      · exact hchunks c hc
      · rw [createChunk_content]
        obtain ⟨x, hx⟩ := List.exists_mem_of_ne_nil currentWords
          (by intro h; rw [h] at hcw; simp at hcw)
        exact joinText_hasNonSpace _ currentWords x hx (hcur x hx)
  | cons w ws2 ih =>
    intro chunks currentWords tok hchunks hcur hws c hc
    rw [splitLongSentenceLoop] at hc
    by_cases hcond : (decide (tok + count_tokens (w ++ toText " ") > max_tokens)
        && !currentWords.isEmpty) = true
    · rw [if_pos hcond] at hc
      have hne : currentWords ≠ [] := by
        intro h
        rw [h] at hcond
        simp at hcond
      refine ih _ _ _ ?_ ?_ (fun x hx => hws x (List.mem_cons_of_mem w hx)) c hc
      · intro d hd
        rcases List.mem_append.mp hd with hd | hd
        · exact hchunks d hd
        · rw [List.mem_singleton.mp hd, createChunk_content]
          obtain ⟨x, hx⟩ := List.exists_mem_of_ne_nil currentWords hne
          exact joinText_hasNonSpace _ currentWords x hx (hcur x hx)
      · intro x hx
        rcases List.mem_append.mp hx with hx | hx
        · exact hcur x (sliceLast_subset _ _ hx)
        · rw [List.mem_singleton.mp hx]
          exact hws w (List.mem_cons_self w ws2)
    · rw [if_neg hcond] at hc
      refine ih _ _ _ hchunks ?_ (fun x hx => hws x (List.mem_cons_of_mem w hx)) c hc
      intro x hx
      rcases List.mem_append.mp hx with hx | hx
      · exact hcur x hx
      · rw [List.mem_singleton.mp hx]
        exact hws w (List.mem_cons_self w ws2)

/-- Invariant of the sentence-packing loop: with non-blank pending
sentences, non-blank emitted chunks and non-blank incoming sentences,
every chunk of the final result is non-blank. -/
theorem splitContentLoop_good (max_tokens overlap_tokens : Nat)
    (sect : DocumentSection) (source : Text) :
    ∀ (sentences : List Text) (chunks : List Chunk) (currentChunk : List Text) (tok : Nat),
      (∀ c ∈ chunks, hasNonSpace c.content = true) →
      (∀ s ∈ currentChunk, hasNonSpace s = true) →
      (∀ s ∈ sentences, hasNonSpace s = true) →
      ∀ c ∈ splitContentLoop max_tokens overlap_tokens sect source sentences chunks
          currentChunk tok,
        hasNonSpace c.content = true := by
  intro sentences
  induction sentences with
  | nil =>
    intro chunks currentChunk tok hchunks hcur hsent c hc
    rw [splitContentLoop] at hc
    cases hcw : currentChunk.isEmpty with
    | true => rw [hcw] at hc; simp only [Bool.not_true, Bool.false_eq_true, if_false] at hc
              exact hchunks c hc
    | false =>
      rw [hcw] at hc
      simp only [Bool.not_false, if_true, List.mem_append, List.mem_singleton] at hc
      rcases hc with hc | rfl
      · exact hchunks c hc
      · rw [createChunk_content]
        obtain ⟨x, hx⟩ := List.exists_mem_of_ne_nil currentChunk
          (by intro h; rw [h] at hcw; simp at hcw)
        exact joinText_hasNonSpace _ currentChunk x hx (hcur x hx)
  | cons s rest ih =>
    intro chunks currentChunk tok hchunks hcur hsent c hc
    rw [splitContentLoop] at hc
    by_cases hlong : count_tokens s > max_tokens
    · rw [if_pos (by simpa using hlong)] at hc
      refine ih _ _ _ ?_ (by intro x hx; cases hx)
        (fun x hx => hsent x (List.mem_cons_of_mem s hx)) c hc
      intro d hd
      rcases List.mem_append.mp hd with hd | hd
      · cases hd2 : currentChunk.isEmpty with
        | true =>
          rw [hd2] at hd
          simp only [Bool.not_true, Bool.false_eq_true, if_false] at hd
          exact hchunks d hd
        | false =>
          rw [hd2] at hd
          simp only [Bool.not_false, if_true, List.mem_append, List.mem_singleton] at hd
          rcases hd with hd | rfl
          · exact hchunks d hd
          · rw [createChunk_content]
            obtain ⟨x, hx⟩ := List.exists_mem_of_ne_nil currentChunk
              (by intro h; rw [h] at hd2; simp at hd2)
            exact joinText_hasNonSpace _ currentChunk x hx (hcur x hx)
      · rw [splitLongSentence] at hd
        refine splitLongSentenceLoop_good max_tokens overlap_tokens sect source
          (pySplitWords s) [] [] 0 (by intro x hx; cases hx) (by intro x hx; cases hx)
          (pySplitWords_hasNonSpace s) d hd
    · rw [if_neg (by simpa using hlong)] at hc
      by_cases hcond : (decide (tok + count_tokens s > max_tokens)
          && !currentChunk.isEmpty) = true
      · rw [if_pos hcond] at hc
        have hne : currentChunk ≠ [] := by
          intro h
          rw [h] at hcond
          simp at hcond
        refine ih _ _ _ ?_ ?_ (fun x hx => hsent x (List.mem_cons_of_mem s hx)) c hc
        · intro d hd
          rcases List.mem_append.mp hd with hd | hd
          · exact hchunks d hd
          · rw [List.mem_singleton.mp hd, createChunk_content]
            obtain ⟨x, hx⟩ := List.exists_mem_of_ne_nil currentChunk hne
            exact joinText_hasNonSpace _ currentChunk x hx (hcur x hx)
        · intro x hx
          rcases List.mem_append.mp hx with hx | hx
          · exact hcur x (getOverlapSentences_subset _ _ x hx)
          · rw [List.mem_singleton.mp hx]
            exact hsent s (List.mem_cons_self s rest)
      · rw [if_neg hcond] at hc
        refine ih _ _ _ hchunks ?_ (fun x hx => hsent x (List.mem_cons_of_mem s hx)) c hc
        intro x hx
        rcases List.mem_append.mp hx with hx | hx
        · exact hcur x hx
        · rw [List.mem_singleton.mp hx]
          exact hsent s (List.mem_cons_self s rest)

/-- C6 (counterexample): the no-blank-chunks invariant fails for sections
emitted whole: a code section with empty content passes through the
unconditional code branch of `_chunk_section` and is emitted as one chunk
whose content is empty (hence empty after trimming). -/
theorem C6_counterexample :
    structChunk 500 50 [C6sect] (toText "d.txt") = [C6chunk] ∧
      hasNonSpace C6chunk.content = false ∧ C6chunk.content = [] := by
  refine ⟨by decide, by decide, by decide⟩

/-- C6 (amended): the invariant holds exactly on the content-splitting
path: `_split_content` returns no chunks for a section whose content strips
to empty, and every chunk it produces has content with a non-whitespace
character (non-empty after trimming) — but sections emitted whole without
that path (code sections, and table sections that fit the budget) are not
checked and may be empty or whitespace-only. -/
theorem C6_split_content_no_blank_chunks (max_tokens overlap_tokens : Nat) (content : Text)
    (sect : DocumentSection) (source : Text) :
    ((pyStrip content).isEmpty = true →
        splitContent max_tokens overlap_tokens content sect source = []) ∧
      ∀ c ∈ splitContent max_tokens overlap_tokens content sect source,
        hasNonSpace c.content = true := by
  constructor
  · intro h
    rw [splitContent, if_pos h]
  · intro c hc
    rw [splitContent] at hc
    by_cases h0 : (pyStrip content).isEmpty = true
    · rw [if_pos h0] at hc
      cases hc
    · rw [if_neg h0] at hc
      have hgood : hasNonSpace content = true := by
        rw [← hasNonSpace_pyStrip]
        exact pyStrip_ne_nil_hasNonSpace content (by simpa using h0)
      by_cases h1 : count_tokens content ≤ max_tokens
      · rw [if_pos h1] at hc
        rw [List.mem_singleton.mp hc, createChunk_content]
        exact hgood
      · rw [if_neg h1] at hc
        exact splitContentLoop_good max_tokens overlap_tokens sect source
          (splitIntoSentences content) [] [] 0 (by intro x hx; cases hx)
          (by intro x hx; cases hx) (splitIntoSentences_hasNonSpace content) c hc

/-- C6 (witness): the amended statement evaluated on a fitting one-sentence
paragraph, whose single chunk is its content verbatim. -/
theorem C6_split_content_no_blank_chunks_witness :
    hasNonSpace (createChunk (toText "Hello world.")
        ⟨toText "Hello world.", none, none, toText "paragraph"⟩ (toText "d.txt")
        none).content = true :=
  (C6_split_content_no_blank_chunks 500 50 (toText "Hello world.")
      ⟨toText "Hello world.", none, none, toText "paragraph"⟩ (toText "d.txt")).2
    (createChunk (toText "Hello world.")
      ⟨toText "Hello world.", none, none, toText "paragraph"⟩ (toText "d.txt") none)
    (by decide)

/-- C9: strategy selection order.  The Facade selects exactly: (1) a
non-`"auto"` strategy pinned at construction; otherwise (2) the Registry's
filename-extension lookup; and (3) when that lookup yields `"default"` and
strictly more than half of the sections are table-typed (`len < 2 * tables`,
the exact integer form of the float test `table_ratio > 0.5`), the override
`"tabular"`.  Concretely, `"data.csv"` resolves to `"tabular"` by extension
alone, and `"notes.txt"` with 80% table sections is overridden to
`"tabular"`. -/
theorem C9_strategy_selection (strategy source : Text) (sections : List DocumentSection) :
    (facadeGetStrategy strategy source sections =
        if strategy ≠ toText "auto" then strategy
        else if registryGetStrategy source none = toText "default" ∧ sections ≠ [] ∧
            sections.length
              < 2 * (sections.filter (fun s => s.section_type = toText "table")).length
          then toText "tabular"
          else registryGetStrategy source none) ∧
      registryGetStrategy (toText "data.csv") none = toText "tabular" ∧
      facadeGetStrategy (toText "auto") (toText "notes.txt") C9sections = toText "tabular" :=
  ⟨facadeGetStrategy_eq strategy source sections, by decide, by
    rw [facadeGetStrategy_eq]
    decide⟩

/-- Auxiliary for C7: the head piece of `split("\n")` is the prefix before
the first newline. -/
theorem splitLinesAux_headD (t : Text) :
    ∀ (acc : Text),
      (splitLinesAux acc t).headD [] = acc.reverse ++ t.takeWhile (fun c => c ≠ '\n') := by
  induction t with
  | nil => intro acc; simp [splitLinesAux]
  | cons c rest ih =>
    intro acc
    rw [splitLinesAux]
    by_cases hc : c = '\n'
    · subst hc
      simp [List.takeWhile_cons]
    · rw [if_neg hc]
      rw [ih (c :: acc)]
      simp [List.takeWhile_cons, hc]

/-- Auxiliary for C7: `lines[0]` is `firstLine`. -/
theorem pySplitLines_headD (t : Text) : (pySplitLines t).headD [] = firstLine t := by
  simpa [pySplitLines, firstLine] using splitLinesAux_headD t []

/-- Auxiliary for C7: the first line contains no newline. -/
theorem firstLine_no_newline (t : Text) : ∀ c ∈ firstLine t, c ≠ '\n' := by
  intro c hc
  have := List.mem_takeWhile_imp hc
  simpa using this

/-- Auxiliary for C7: prepending a newline-free header keeps it as the
first line. -/
theorem firstLine_append (h rest : Text) (hh : ∀ c ∈ h, c ≠ '\n') :
    firstLine (h ++ '\n' :: rest) = h := by
  induction h with
  | nil => simp [firstLine, List.takeWhile_cons]
  | cons a as ih =>
    have ha : a ≠ '\n' := hh a (List.mem_cons_self a as)
    rw [List.cons_append]
    rw [firstLine] at ih ⊢
    rw [List.takeWhile_cons, if_pos (by simpa using ha)]
    rw [ih (fun c hc => hh c (List.mem_cons_of_mem a hc))]

/-- C7: when a table section's estimate exceeds `max_tokens` and the header
leaves a positive remaining row budget, every chunk the tabular chunker
emits for the section starts with the section's first (header) line. -/
theorem C7_header_on_every_chunk (max_tokens overlap_tokens : Nat)
    (sect : DocumentSection) (source : Text)
    (hbig : max_tokens < count_tokens sect.content)
    (havail : 0 < (max_tokens : Int) - count_tokens (firstLine sect.content) - overlap_tokens) :
    ∀ c ∈ tabularChunkTableSection max_tokens overlap_tokens sect source,
      firstLine c.content = firstLine sect.content := by
  intro c hc
  rw [tabularChunkTableSection] at hc
  rw [if_neg (by omega)] at hc
  simp only [pySplitLines_headD] at hc
  rw [if_neg (by omega)] at hc
  obtain ⟨g, hg, rfl⟩ := List.mem_map.mp hc
  exact firstLine_append (firstLine sect.content) (joinText (toText "\n") g)
    (firstLine_no_newline sect.content)

/-- C7 (witness): the header-line property evaluated on `C7sect` with
budget 4 and overlap 0, at the first of the two emitted chunks. -/
theorem C7_header_on_every_chunk_witness :
    firstLine (createChunk (toText "hhhhhhhhhh\naaaa\nbbbb") C7sect (toText "t.csv")
        none).content
      = firstLine C7sect.content :=
  C7_header_on_every_chunk 4 0 C7sect (toText "t.csv") (by decide) (by decide)
    (createChunk (toText "hhhhhhhhhh\naaaa\nbbbb") C7sect (toText "t.csv") none) (by decide)

/-- C8 (counterexample): on `C8sect` with budget 4 and overlap 0 the
computed `rows_per_chunk` is 2, yet the emitted batches are `[aaaa, bbbb]`
and `[bbbb]`: the final batch has size 1, not `rows_per_chunk`, and
consists only of the retained overlap row (the post-loop flush re-emits
it), so the rows are **not** grouped into consecutive batches of size
`rows_per_chunk`. -/
theorem C8_counterexample :
    tabularChunkTableSection 4 0 C8sect (toText "t.csv")
        = [createChunk (toText "hhhhhhhhhh\naaaa\nbbbb") C8sect (toText "t.csv") none,
           createChunk (toText "hhhhhhhhhh\nbbbb") C8sect (toText "t.csv") none] ∧
      groupRows [toText "aaaa", toText "bbbb"] 2
        = [[toText "aaaa", toText "bbbb"], [toText "bbbb"]] ∧
      ¬ (groupRows [toText "aaaa", toText "bbbb"] 2).all (fun g => g.length = 2) = true := by
  refine ⟨by decide, by decide, by decide⟩

/-- Auxiliary for C8: loop invariant of `_group_rows` for
`rows_per_chunk ≥ 2`.  Flushed groups have exactly `rows_per_chunk` rows;
the group under construction is shorter than `rows_per_chunk` and, once a
group has been flushed, starts with its final `rows_per_chunk / 2` rows. -/
theorem groupRowsLoop_structure (rpc : Nat) (h2 : 2 ≤ rpc) :
    ∀ (rest : List Text) (groups : List (List Text)) (current : List Text),
      current.length < rpc →
      (∀ g ∈ groups, g.length = rpc) →
      List.Chain' (fun a b => b.take (rpc / 2) = a.drop (a.length - rpc / 2)) groups →
      (∀ a ∈ groups.getLast?, rpc / 2 ≤ current.length ∧
          current.take (rpc / 2) = a.drop (a.length - rpc / 2)) →
      (∀ g ∈ (groupRowsLoop rpc rest groups current).dropLast, g.length = rpc) ∧
        List.Chain' (fun a b => b.take (rpc / 2) = a.drop (a.length - rpc / 2))
          (groupRowsLoop rpc rest groups current) := by
  intro rest
  induction rest with
  | nil =>
    intro groups current hlen hsz hch hlink
    rw [groupRowsLoop]
    cases hcur : current.isEmpty with
    | true =>
      simp only [hcur, Bool.not_true, Bool.false_eq_true, if_false]
      exact ⟨fun g hg => hsz g ((List.dropLast_sublist _).subset hg), hch⟩
    | false =>
      simp only [hcur, Bool.not_false, if_true]
      constructor
      · rw [List.dropLast_concat]
        exact hsz
      · rw [List.chain'_append]
        refine ⟨hch, List.chain'_singleton current, ?_⟩
        intro a ha y hy
        simp only [List.head?_cons, Option.mem_def, Option.some.injEq] at hy
        subst hy
        exact (hlink a ha).2
  | cons row rest2 ih =>
    intro groups current hlen hsz hch hlink
    rw [groupRowsLoop]
    by_cases hflush : (current ++ [row]).length ≥ rpc
    · rw [if_pos hflush]
      have hc1len : (current ++ [row]).length = rpc := by
        simp only [List.length_append, List.length_singleton] at hflush ⊢
        omega
      have hhalf1 : 1 ≤ rpc / 2 := by omega
      have hhalf2 : rpc / 2 ≤ rpc := by omega
      have hmin : min (rpc / 2) (current ++ [row]).length = rpc / 2 := by
        rw [hc1len]; exact Nat.min_eq_left hhalf2
      simp only [hmin]
      have hslice : sliceLast (rpc / 2) (current ++ [row])
          = (current ++ [row]).drop ((current ++ [row]).length - rpc / 2) := by
        rw [sliceLast, if_neg (by omega)]
      rw [hslice]
      apply ih
      · rw [List.length_drop, hc1len]
        omega
      · intro g hg
        rcases List.mem_append.mp hg with h | h
        · exact hsz g h
        · rw [List.mem_singleton.mp h]
          exact hc1len
      · rw [List.chain'_append]
        refine ⟨hch, List.chain'_singleton _, ?_⟩
        intro a ha y hy
        simp only [List.head?_cons, Option.mem_def, Option.some.injEq] at hy
        subst hy
        have hl := hlink a ha
        rw [List.take_append_of_le_length hl.1]
        exact hl.2
      · intro a ha
        rw [List.getLast?_concat] at ha
        simp only [Option.mem_def, Option.some.injEq] at ha
        subst ha
        constructor
        · rw [List.length_drop, hc1len]
          omega
        · apply List.take_of_length_le
          rw [List.length_drop, hc1len]
          omega
    · rw [if_neg hflush]
      apply ih
      · simp only [List.length_append, List.length_singleton]
        simp only [List.length_append, List.length_singleton, ge_iff_le, not_le] at hflush
        omega
      · exact hsz
      · exact hch
      · intro a ha
        have hl := hlink a ha
        constructor
        · calc rpc / 2 ≤ current.length := hl.1
            _ ≤ (current ++ [row]).length := by simp
        · rw [List.take_append_of_le_length hl.1]
          exact hl.2

/-- C8 (amended): `rows_per_chunk` is `max(1, row_budget // avg_row_tokens)`
as claimed, but there is no minimum-one-row overlap floor and batch sizes
are only uniform away from the tail: for `rows_per_chunk ≥ 2`, every batch
except the last has exactly `rows_per_chunk` rows, and each batch begins
with the final `rows_per_chunk / 2` rows of its predecessor (the final
batch may be shorter and may consist only of those overlap rows; for
`rows_per_chunk = 1` the overlap count is 0 and the slice retains the whole
group, see C10). -/
theorem C8_grouping_structure (rows : List Text) (rpc : Nat) (h2 : 2 ≤ rpc) :
    (∀ g ∈ (groupRows rows rpc).dropLast, g.length = rpc) ∧
      List.Chain' (fun a b => b.take (rpc / 2) = a.drop (a.length - rpc / 2))
        (groupRows rows rpc) := by
  rw [groupRows]
  by_cases h : rows.isEmpty = true
  · simp [h]
  · rw [if_neg h]
    exact groupRowsLoop_structure rpc h2 rows [] []
      (by simp only [List.length_nil]; omega) (by simp) List.chain'_nil (by simp)

/-- C8 (witness): the amended statement evaluated on three one-token rows
with `rows_per_chunk = 2`, at the first batch (the groups are
`[aaaa, bbbb]`, `[bbbb, cccc]`, `[cccc]`). -/
theorem C8_grouping_structure_witness :
    ([toText "aaaa", toText "bbbb"] : List Text).length = 2 :=
  (C8_grouping_structure [toText "aaaa", toText "bbbb", toText "cccc"] 2 (by decide)).1
    [toText "aaaa", toText "bbbb"] (by decide)

/-- C10 (counterexample): with `rows_per_chunk = 1` and a single data row,
`_group_rows` returns **two** groups (the claim says `k = 1`): the loop
flushes `[row]` and the `[-0:]` slice keeps the whole group, which the
post-loop flush appends again. -/
theorem C10_counterexample :
    groupRows [toText "aaaa"] 1 = [[toText "aaaa"], [toText "aaaa"]] ∧
      (groupRows [toText "aaaa"] 1).length ≠ 1 := by
  refine ⟨by decide, by decide⟩

/-- Auxiliary for C10: closed form of the `_group_rows` loop for
`rows_per_chunk = 1`.  Every incoming row flushes, the `[-0:]` slice keeps
the whole accumulated group, and the post-loop flush appends the final
accumulated group once more. -/
theorem groupRowsLoop_one (rest : List Text) :
    ∀ (groups : List (List Text)) (current : List Text),
      groupRowsLoop 1 rest groups current
        = groups ++ (List.range rest.length).map (fun i => current ++ rest.take (i + 1))
            ++ (if current ++ rest = [] then [] else [current ++ rest]) := by
  induction rest with
  | nil =>
    intro groups current
    rw [groupRowsLoop]
    cases hcur : current.isEmpty with
    | true =>
      rw [List.isEmpty_iff.mp hcur]
      simp
    | false =>
      have : current ≠ [] := fun hc => by simp [hc] at hcur
      simp [this]
  | cons row rest2 ih =>
    intro groups current
    rw [groupRowsLoop]
    rw [if_pos (by simp)]
    have hmin : min (1 / 2) (current ++ [row]).length = 0 := by simp
    simp only [hmin]
    have hslice : sliceLast 0 (current ++ [row]) = current ++ [row] := by
      rw [sliceLast, if_pos rfl]
    rw [hslice, ih]
    have hne : current ++ [row] ++ rest2 ≠ [] := by simp
    have hne2 : current ++ row :: rest2 ≠ [] := by simp
    rw [if_neg hne, if_neg (by simp)]
    simp only [List.length_cons, List.range_succ_eq_map, List.map_cons, List.map_map,
      List.take_succ_cons, List.take_zero]
    simp [Function.comp_def, List.append_assoc]

/-- C10 (amended): the described degenerate accumulation is real, but the
group count is `k + 1`, not `k`: for `rows_per_chunk = 1` and `k` data
rows, `_group_rows` returns the `k` prefixes (the i-th group is exactly
the first `i` rows, so every successive chunk repeats all rows of every
earlier chunk) **plus** a final duplicate group of all `k` rows appended
by the post-loop flush. -/
theorem C10_rpc_one_prefix_groups (rows : List Text) (h : rows ≠ []) :
    groupRows rows 1
      = (List.range rows.length).map (fun i => rows.take (i + 1)) ++ [rows] := by
  rw [groupRows]
  rw [if_neg (by simpa using h)]
  rw [groupRowsLoop_one]
  simp [h]

/-- C10 (witness): the amended statement evaluated on two rows: the groups
are `[aaaa]`, `[aaaa, bbbb]`, `[aaaa, bbbb]`. -/
theorem C10_rpc_one_prefix_groups_witness :
    groupRows [toText "aaaa", toText "bbbb"] 1
      = (List.range 2).map (fun i => [toText "aaaa", toText "bbbb"].take (i + 1)) ++
        [[toText "aaaa", toText "bbbb"]] :=
  C10_rpc_one_prefix_groups [toText "aaaa", toText "bbbb"] (by decide)

end Chunking
